import Mathlib

set_option maxRecDepth 20000

/-!
Verification development for the EPPPN tutoring backend.

The TypeScript sources are shallowly embedded below:

* `getSignals`, `buildRadar`, `clamp`, `ensureGenericChartsAlways` and
  `extractGraphJsonBlock` embed the chat route (heuristic signal
  extraction, chart synthesis and sentinel-block extraction).
* `repairPipelineCore` embeds the JSON-repair ladder of the chat route's
  `POST` handler (primary parse, a single repair completion, and the
  fixed placeholder envelope).
* `retrievedOf`, `retrievedContext`, `userPromptText` and `ragUsed`
  embed the retrieval (RAG) section of the document-grounded route's
  `POST` handler.
* `middleware` embeds the basic-auth gateway.

JavaScript numbers that occur here are exact decimal values; they are
embedded as `Dec`, a canonical scaled decimal `m / 10^k`.  Floating
point rounding is not modelled: every numeric literal the code
manipulates (scores, minutes, parsed decimals, similarity floors) is a
short decimal that IEEE doubles represent and compare exactly for the
properties considered.  `Number` overflow to `Infinity` is modelled by
the explicit finiteness bound `jsNumFinite` (doubles overflow at
`2^1024`).  `String.prototype.toLowerCase` is modelled on the ASCII
letters, the only case-carrying characters the heuristics inspect.
-/

/-- Decimal number `m / 10 ^ k`.  Values built by the parsers below are
kept canonical (`k` minimal, i.e. `10 ∤ m` whenever `k > 0`), so that
structural equality coincides with numeric equality, as JavaScript's
`Set` / `===` comparison of numbers does. -/
structure Dec where
  m : Int
  k : Nat
deriving DecidableEq, Repr

/-- Comparison `a ≤ b` on scaled decimals, by cross multiplication. -/
def Dec.le (a b : Dec) : Bool := a.m * (10 : Int) ^ b.k ≤ b.m * (10 : Int) ^ a.k

/-- Canonicalisation helper: strip factors of ten, fuel-bounded by `k`. -/
def Dec.canonAux : Nat → Int → Nat → Dec
  | 0, m, k => ⟨m, k⟩
  | f + 1, m, k =>
    if k = 0 then ⟨m, 0⟩
    else if m % 10 = 0 then Dec.canonAux f (m / 10) (k - 1)
    else ⟨m, k⟩

/-- Canonical decimal for the value `m / 10 ^ k`. -/
def Dec.canon (m : Int) (k : Nat) : Dec := Dec.canonAux k m k

/-- Lower-casing of one character, as `toLowerCase` acts on ASCII. -/
def jsLowerChar (c : Char) : Char :=
  if 65 ≤ c.toNat ∧ c.toNat ≤ 90 then Char.ofNat (c.toNat + 32) else c

/-- Embedding of `String.prototype.toLowerCase` (ASCII range). -/
def jsToLower (s : String) : String := String.mk (s.data.map jsLowerChar)

/-- White-space class used by JavaScript's `trim` and by `\s` (the ASCII
members, the only ones the embedded strings contain). -/
def jsIsWs (c : Char) : Bool :=
  c = ' ' || c = '\t' || c = '\n' || c = '\r' || c = '\x0b' || c = '\x0c'

/-- Embedding of `String.prototype.trim` on character lists. -/
def jsTrimL (l : List Char) : List Char :=
  ((l.dropWhile jsIsWs).reverse.dropWhile jsIsWs).reverse

/-- Embedding of `String.prototype.trim`. -/
def jsTrim (s : String) : String := String.mk (jsTrimL s.data)

/-- JavaScript word characters (`\w` is ASCII without the `u` flag). -/
def isWordChar (c : Char) : Bool := c.isAlphanum || c = '_'

/-- A `\b` word boundary holds after a word character iff the following
text starts with a non-word character (or is the end of input). -/
def boundaryAfter (l : List Char) : Bool :=
  match l with
  | [] => true
  | c :: _ => !isWordChar c

/-- Embedding of `String.prototype.includes` on character lists. -/
def includesL (h sub : List Char) : Bool :=
  match h with
  | [] => sub.isEmpty
  | _ :: t => sub.isPrefixOf h || includesL t sub

/-- Existence of a match of an anchored pattern at some position: the
embedding of `RegExp.prototype.test` for the patterns below. -/
def scanAny (p : List Char → Bool) : List Char → Bool
  | [] => p []
  | l@(_ :: t) => p l || scanAny p t

/-- Position scan that also tracks the previous character, for patterns
with a leading `\b`. -/
def scanPrev (p : Option Char → List Char → Bool) : Option Char → List Char → Bool
  | prev, [] => p prev []
  | prev, l@(c :: t) => p prev l || scanPrev p (some c) t

/-- Anchored match of `/%|°c|c\b|w\d+|w\s*\d+|h\b|heures?|min\b|minutes?|€|eur|kg\b|g\b|gr\b|t°|temp/`
at the head of the text (the input is already lower-cased, so the `i`
flag is inert).  `heures?` and `minutes?` match somewhere iff their
mandatory stems `heure` / `minute` do. -/
def unitsAt (l : List Char) : Bool :=
  match l with
  | [] => false
  | c :: t =>
    (c = '%') ||
    (c = '°' && ("c".data.isPrefixOf t)) ||
    (c = 'c' && boundaryAfter t) ||
    (c = 'w' && (match t with | d :: _ => d.isDigit | [] => false)) ||
    (c = 'w' && (match t.dropWhile jsIsWs with | d :: _ => d.isDigit | [] => false)) ||
    (c = 'h' && boundaryAfter t) ||
    ("heure".data.isPrefixOf l) ||
    ("min".data.isPrefixOf l && boundaryAfter (l.drop 3)) ||
    ("minute".data.isPrefixOf l) ||
    (c = '€') ||
    ("eur".data.isPrefixOf l) ||
    ("kg".data.isPrefixOf l && boundaryAfter (l.drop 2)) ||
    (c = 'g' && boundaryAfter t) ||
    ("gr".data.isPrefixOf l && boundaryAfter (l.drop 2)) ||
    ("t°".data.isPrefixOf l) ||
    ("temp".data.isPrefixOf l)

/-- Anchored match of `/\bou\b/` given the previous character. -/
def ouAt (prev : Option Char) (l : List Char) : Bool :=
  (match prev with
   | none => true
   | some pc => !isWordChar pc) &&
  "ou".data.isPrefixOf l && boundaryAfter (l.drop 2)

/-- Anchored match of `/(\d+)\s*h\b/`: one or more digits, optional
white space, an `h`, then a word boundary.  `\d+` is consumed greedily;
no backtracking helps since an `h` is neither a digit nor white space. -/
def hoursAt (l : List Char) : Bool :=
  match l with
  | [] => false
  | c :: _ =>
    c.isDigit &&
    (match (l.dropWhile Char.isDigit).dropWhile jsIsWs with
     | 'h' :: r => boundaryAfter r
     | _ => false)

/-- Anchored match of `/(\d+)\s*min\b/`. -/
def minutesAt (l : List Char) : Bool :=
  match l with
  | [] => false
  | c :: _ =>
    c.isDigit &&
    (let r := (l.dropWhile Char.isDigit).dropWhile jsIsWs
     "min".data.isPrefixOf r && boundaryAfter (r.drop 3))

/-- Anchored match of `/w\d+/`. -/
def wDigitAt (l : List Char) : Bool :=
  match l with
  | 'w' :: d :: _ => d.isDigit
  | _ => false

/-- Longest digit prefix and the remaining text. -/
def digitSpan (l : List Char) : List Char × List Char :=
  (l.takeWhile Char.isDigit, l.dropWhile Char.isDigit)

/-- Anchored match of the numeric literal regex (optional sign, digits,
optionally `[.,]` and digits), returning the matched literal and the
remaining text.  The fractional group is taken only when a separator is
directly followed by a digit, exactly as the regex backtracks. -/
def matchNumAt : List Char → Option (List Char × List Char)
  | [] => none
  | c :: t =>
    if c = '-' then
      match t with
      | d :: _ =>
        if d.isDigit then
          let (ds, r1) := digitSpan t
          match r1 with
          | s :: d2 :: r2 =>
            if (s = '.' || s = ',') && d2.isDigit then
              let (fs, r3) := digitSpan (d2 :: r2)
              some ('-' :: ds ++ s :: fs, r3)
            else some ('-' :: ds, r1)
          | _ => some ('-' :: ds, r1)
        else none
      | [] => none
    else if c.isDigit then
      let (ds, r1) := digitSpan (c :: t)
      match r1 with
      | s :: d2 :: r2 =>
        if (s = '.' || s = ',') && d2.isDigit then
          let (fs, r3) := digitSpan (d2 :: r2)
          some (ds ++ s :: fs, r3)
        else some (ds, r1)
      | _ => some (ds, r1)
    else none

/-- Global (`g` flag) scan for the numeric-literal regex, fuel-bounded
by the input length (every step consumes at least one character). -/
def numberLitsAux : Nat → List Char → List (List Char)
  | 0, _ => []
  | _ + 1, [] => []
  | f + 1, l@(_ :: t) =>
    match matchNumAt l with
    | some (lit, rest) => lit :: numberLitsAux f rest
    | none => numberLitsAux f t

/-- All matches of the numeric-literal regex, left to right. -/
def numberLits (l : List Char) : List (List Char) := numberLitsAux l.length l

/-- Embedding of `String(s).replace(",", ".")`: the first comma (there
is at most one in a matched literal) becomes a dot. -/
def commaToDot : List Char → List Char
  | [] => []
  | c :: t => if c = ',' then '.' :: t else c :: commaToDot t

/-- Digit characters to their numeric value. -/
def digitsToNat (l : List Char) : Nat :=
  l.foldl (fun a c => a * 10 + (c.toNat - 48)) 0

/-- Strip trailing zero digits of a fractional part (canonicalisation:
`Number("2.50")` and `Number("2.5")` are the same value). -/
def stripTrailingZeros (l : List Char) : List Char :=
  (l.reverse.dropWhile (fun c => c = '0')).reverse

/-- Value of `Number(lit)` for a literal produced by the numeric regex
(after comma normalisation): optional sign, digits, optional dot and
digits.  Returns `none` on any other shape (unreachable for literals the
regex produced). -/
def parseDecLit (l : List Char) : Option Dec :=
  let (neg, l1) :=
    match l with
    | '-' :: t => (true, t)
    | _ => (false, l)
  let (ds, r) := digitSpan l1
  if ds.isEmpty then none
  else
    match r with
    | [] =>
      let n : Int := Int.ofNat (digitsToNat ds)
      some ⟨if neg then -n else n, 0⟩
    | '.' :: fr =>
      let (fs, r2) := digitSpan fr
      if r2.isEmpty && !fs.isEmpty then
        let fs2 := stripTrailingZeros fs
        let n : Int := Int.ofNat (digitsToNat (ds ++ fs2))
        some ⟨if neg then -n else n, fs2.length⟩
      else none
    | _ => none

/-- Finiteness of the double a literal converts to: doubles overflow to
`Infinity` from `2^1024` on, which `Number.isFinite` then rejects. -/
def jsNumFinite (d : Dec) : Bool := d.m.natAbs < 2 ^ 1024 * 10 ^ d.k

/-- Signals derived from one user message (`getSignals`'s result). -/
structure Signals where
  msg : String
  nums : List Dec
  hasVariables : Bool
  hasUnits : Bool
  isComparison : Bool
  isProtocol : Bool
  topic : String
deriving DecidableEq, Repr

/-- Embedding of `getSignals` (chat route, lines 17–72): lower-case the
message, extract numeric literals, unit markers, comparison and protocol
language, and classify the topic by the first matching keyword group. -/
def getSignals (message : String) : Signals :=
  let msgS := jsToLower message
  let msg := msgS.data
  let nums :=
    ((numberLits msg).filterMap (fun lit => parseDecLit (commaToDot lit))).filter jsNumFinite
  let hasUnits := scanAny unitsAt msg
  let hasVariables :=
    !nums.isEmpty && (hasUnits || includesL msg "w260".data || includesL msg "w320".data)
  let isComparison :=
    includesL msg "comparer".data ||
    includesL msg "comparaison".data ||
    includesL msg "vs".data ||
    includesL msg "versus".data ||
    includesL msg "w260".data ||
    includesL msg "w320".data ||
    scanPrev ouAt none msg
  let isProtocol :=
    includesL msg "protocole".data ||
    includesL msg "planning".data ||
    includesL msg "timeline".data ||
    includesL msg "pointage".data ||
    includesL msg "apprêt".data ||
    includesL msg "appret".data ||
    includesL msg "frigo".data ||
    includesL msg "48h".data ||
    includesL msg "48 h".data ||
    includesL msg "24h".data ||
    includesL msg "24 h".data ||
    includesL msg "72h".data ||
    includesL msg "72 h".data ||
    scanAny hoursAt msg ||
    scanAny minutesAt msg
  let topic :=
    if includesL msg "farine".data || scanAny wDigitAt msg then "farines"
    else if includesL msg "four".data || includesL msg "cuisson".data ||
        includesL msg "sole".data || includesL msg "voûte".data ||
        includesL msg "voute".data then "fours"
    else if includesL msg "marge".data || includesL msg "rentable".data ||
        includesL msg "coût".data || includesL msg "cout".data ||
        includesL msg "€".data then "economie"
    else if includesL msg "concurrence".data || includesL msg "positionnement".data ||
        includesL msg "usp".data then "concurrence"
    else if includesL msg "organisation".data || includesL msg "process".data ||
        includesL msg "rush".data || includesL msg "service".data then "organisation"
    else "general"
  { msg := msgS, nums := nums, hasVariables := hasVariables, hasUnits := hasUnits,
    isComparison := isComparison, isProtocol := isProtocol, topic := topic }

/-- Reasoning-depth mode (`Speed` in the source; "deep" is
`APPROFONDIE`, "quick" is `VITE`). -/
inductive Speed where
  | VITE
  | APPROFONDIE
deriving DecidableEq, Repr

/-- Recap table of an envelope (`recap_table`). -/
structure RecapTable where
  columns : List String
  rows : List (List String)
  note : String
deriving DecidableEq, Repr

/-- Checklist entry of an envelope. -/
structure ChecklistItem where
  action : String
  expected_effect : String
  priority : String
deriving DecidableEq, Repr

/-- Step of a timeline chart. -/
structure TimelineStep where
  label : String
  minutes : Int
  purpose : String
deriving DecidableEq, Repr

/-- Point of a scatter chart. -/
structure ScatterPoint where
  x : Dec
  y : Int
  label : String
deriving DecidableEq, Repr

/-- Payload of one chart, by chart kind. -/
inductive ChartData where
  | tableD (t : RecapTable)
  | barD (labels : List String) (values : List Int) (unit : String) (note : String)
  | timelineD (steps : List TimelineStep) (note : String)
  | radarD (labels : List String) (values : List Int) (note : String)
  | scatterD (x_label : String) (y_label : String) (points : List ScatterPoint) (note : String)
deriving DecidableEq, Repr

/-- One chart of an envelope (`type` holds the kind tag the code sets). -/
structure Chart where
  type : String
  title : String
  description : String
  data : ChartData
deriving DecidableEq, Repr

/-- Structured response envelope the model is contracted to emit. -/
structure Envelope where
  title : String
  summary : String
  confidence : Int
  charts : List Chart
  checklist : List ChecklistItem
  recap_table : Option RecapTable
  questions : List String
deriving DecidableEq, Repr

/-- Embedding of `clamp` (chat route, lines 74–76). -/
def clamp (n lo hi : Int) : Int := max lo (min hi n)

/-- Embedding of `buildRadar` (chat route, lines 78–120).  The source's
unused optional `hint` parameter is dropped: the only call site passes
just the topic. -/
def buildRadar (topic : String) : ChartData :=
  if topic = "farines" then
    .radarD ["Force (W)", "Tolérance froid", "Extensibilité", "Absorption", "Régularité", "Risques (tenace)"]
      [70, 75, 60, 65, 70, 55]
      "Radar qualitatif (0–100). Ajustable dès que tu fournis % hydratation, T°, inoculation et durée."
  else if topic = "fours" then
    .radarD ["Stabilité T°", "Récupération", "Sole (homog.)", "Puissance", "Consommation", "Budget/ROI"]
      [70, 70, 65, 75, 55, 60]
      "Radar qualitatif (0–100) pour comparer des options de fours."
  else if topic = "economie" then
    .radarD ["Coût matière", "Temps prep", "Prix perçu", "Marge", "Complexité", "Vitesse service"]
      [65, 60, 70, 70, 55, 65]
      "Radar qualitatif (0–100). Fournis 2-3 coûts pour le rendre chiffré."
  else if topic = "organisation" then
    .radarD ["Mise en place", "Flux", "Standardisation", "Qualité", "Stress", "Débit"]
      [65, 60, 65, 70, 55, 60]
      "Radar qualitatif (0–100) sur l\x27efficacité opérationnelle."
  else if topic = "concurrence" then
    .radarD ["Différenciation", "Lisibilité offre", "Prix", "Localisation", "Preuves qualité", "Répétabilité"]
      [65, 60, 60, 55, 70, 60]
      "Radar qualitatif (0–100) pour structurer un positionnement."
  else
    .radarD ["Fermentation", "Hydratation", "Pétrissage", "Façonnage", "Cuisson", "Organisation"]
      [60, 60, 60, 60, 60, 60]
      "Radar générique (0–100). Donne 3 paramètres pour le personnaliser."

/-- Fuel-bounded helper for `jsSetDedup` (the filtered tail is shorter
than the input, so the input length is enough fuel). -/
def jsSetDedupAux : Nat → List Dec → List Dec
  | 0, _ => []
  | _ + 1, [] => []
  | f + 1, d :: t => d :: jsSetDedupAux f (t.filter (fun e => e ≠ d))

/-- Keep the first occurrence of each value, in encounter order: the
embedding of `Array.from(new Set(a))` (canonical `Dec` makes structural
equality agree with JavaScript's number equality). -/
def jsSetDedup (l : List Dec) : List Dec := jsSetDedupAux l.length l

/-- Decimal rendering of a canonical `Dec`, as JavaScript's `String(v)`
prints these values (integers without a point, fractions with no
trailing zeros). -/
def decToString (d : Dec) : String :=
  if d.k = 0 then toString d.m
  else
    let ds := (toString d.m.natAbs).data
    let padded := if ds.length ≤ d.k then List.replicate (d.k + 1 - ds.length) '0' ++ ds else ds
    String.mk ((if d.m < 0 then ['-'] else []) ++
      padded.take (padded.length - d.k) ++ '.' :: padded.drop (padded.length - d.k))

/-- Radar chart pushed first by `ensureGenericChartsAlways`. -/
def radarChartAuto (topic : String) : Chart :=
  { type := "radar",
    title := "Radar (auto) — lecture scientifique",
    description := "Scores qualitatifs (0–100) pour visualiser compromis / risques / leviers.",
    data := buildRadar topic }

/-- Timeline chart pushed when `isProtocol` holds (chat route,
lines 164–181). -/
def timelineChartAuto : Chart :=
  { type := "timeline",
    title := "Timeline (auto) — structure du protocole",
    description := "Étapes typiques (à ajuster selon T° frigo, inoculation, force farine).",
    data := .timelineD
      [ { label := "Pétrissage", minutes := 15, purpose := "Développer réseau sans chauffer (viser T° pâte stable)" },
        { label := "Pointage", minutes := 60, purpose := "Démarrage fermentation (observer volume/tension)" },
        { label := "Boulage", minutes := 10, purpose := "Créer tension de surface (pâtons homogènes)" },
        { label := "Froid", minutes := 2880, purpose := "48h frigo (maturation/tenue)" },
        { label := "Remise T°", minutes := 120, purpose := "Réactiver fermentation avant cuisson" } ]
      "Timeline indicative. Donne T° frigo + inoculation (% levure/levain) pour calibrer." }

/-- Bar chart pushed when `isComparison` holds (chat route,
lines 183–196). -/
def barChartAuto (topic : String) : Chart :=
  { type := "bar",
    title := "Comparaison (auto) — scores relatifs",
    description := "Plus haut = plus adapté au cas décrit (qualitatif).",
    data := .barD
      (if topic = "farines" then ["Option A (W260)", "Option B (W320)"] else ["Option A", "Option B"])
      (if topic = "farines" then [60, 78] else [65, 70])
      "score"
      "Scores indicatifs (qualitatifs). Ajoute 2–3 paramètres pour quantifier." }

/-- Scatter chart pushed when at least two numbers were extracted (chat
route, lines 198–217): the distinct values among the first six numbers,
each with the synthetic score `clamp(55 + i * 6, 40, 90)` and the
value's decimal string as label. -/
def scatterChartAuto (nums : List Dec) : Chart :=
  let x := (jsSetDedup (nums.take 6)).take 6
  { type := "scatter",
    title := "Scatter (auto) — sensibilité (qualitative)",
    description := "Projection qualitative : comment une variable (x) peut influencer un score (y).",
    data := .scatterD "Valeur détectée" "Score qualitatif"
      (x.enum.map (fun p => { x := p.2, y := clamp (55 + (p.1 : Int) * 6) 40 90, label := decToString p.2 }))
      "Scatter qualitatif (démonstration). Pour du chiffré: précise la variable (hydratation, T°, inoculation) et la mesure cible." }

/-- Minimal recap table created when the envelope carries none. -/
def minimalRecapTable : RecapTable :=
  { columns := ["Levier", "Action", "Indicateur"],
    rows := [],
    note := "Tableau créé automatiquement (structure)." }

/-- Fixed illustrative rows used to populate an empty recap table after
charts were synthesised (chat route, lines 231–240). -/
def autoRecapTable : RecapTable :=
  { columns := ["Levier", "Action", "Indicateur"],
    rows :=
      [ ["Température", "Stabiliser T° pâte et T° frigo", "T° pâte (sonde) + tenue pâtons"],
        ["Temps", "Ajuster 1 variable à la fois", "Volume + extensibilité + bullage"],
        ["Inoculation", "Réduire/augmenter levure/levain selon T°", "Odeur + vitesse de pousse"] ],
    note := "Tableau auto (à personnaliser dès que tu donnes 3 paramètres)." }

/-- Embedding of `ensureGenericChartsAlways` (chat route, lines
122–243).  The typed envelope makes the source's dynamic guards
(`!graph`, `Array.isArray`) inert, except for the possibly missing
`recap_table`, kept as an `Option`. -/
def ensureGenericChartsAlways (graph : Envelope) (speed : Speed) (message : String) : Envelope :=
  let s := getSignals message
  let g1 : Envelope := { graph with recap_table := some (graph.recap_table.getD minimalRecapTable) }
  let needCharts : Bool :=
    (speed == Speed.APPROFONDIE) && (s.hasVariables || s.isComparison || s.isProtocol)
  if needCharts = false then g1
  else if 0 < g1.charts.length then g1
  else
    let charts : List Chart :=
      [radarChartAuto s.topic] ++
      (if s.isProtocol then [timelineChartAuto] else []) ++
      (if s.isComparison then [barChartAuto s.topic] else []) ++
      (if 2 ≤ s.nums.length then [scatterChartAuto s.nums] else [])
    let charts :=
      if charts.length = 0 then
        [{ type := "table", title := "Tableau (auto) — synthèse",
           description := "Généré automatiquement (structure).",
           data := .tableD (g1.recap_table.getD minimalRecapTable) }]
      else charts
    let g2 := { g1 with charts := charts }
    match g2.recap_table with
    | some rt =>
      if rt.rows.length = 0 then { g2 with recap_table := some autoRecapTable } else g2
    | none => g2

/-- Case-insensitive anchored match of a marker at the head of the
text. -/
def matchesCI (pat l : List Char) : Bool :=
  (pat.map jsLowerChar).isPrefixOf (l.map jsLowerChar)

/-- Index of the first case-insensitive occurrence of a marker. -/
def findCI (pat : List Char) : List Char → Option Nat
  | [] => if matchesCI pat [] then some 0 else none
  | l@(_ :: t) => if matchesCI pat l then some 0 else (findCI pat t).map (· + 1)

/-- The opening sentinel marker. -/
def openMarker : List Char := "<GRAPH_JSON>".data

/-- The closing sentinel marker. -/
def closeMarker : List Char := "</GRAPH_JSON>".data

/-- Whether the sentinel regex finds a delimited block at all: a first
case-insensitive opening marker followed, later, by a closing marker.
(If the first opening marker has no closing marker after it, no later
position can start a match either, since every closing marker after a
later opening marker also lies after the first one.) -/
def graphBlockFound (raw : List Char) : Bool :=
  match findCI openMarker raw with
  | none => false
  | some i => (findCI closeMarker (raw.drop (i + openMarker.length))).isSome

/-- Embedding of `extractGraphJsonBlock` (chat route, lines 8–14) on
character lists.  The regex group strips the white space around the
enclosed content, and an all-white-space content leaves the group empty,
which the source's falsiness test `!m?.[1]` sends to the no-block
branch.  `raw.replace(m[0], "")` removes the first occurrence of the
matched text; that occurrence is the match span itself, because an
earlier copy of the matched text would begin with a case-insensitive
opening marker and contain a closing one, contradicting that the regex
match is leftmost; it is therefore embedded as removing the span. -/
def extractCore (raw : List Char) : List Char × Option (List Char) :=
  match findCI openMarker raw with
  | none => (jsTrimL raw, none)
  | some i =>
    match findCI closeMarker (raw.drop (i + openMarker.length)) with
    | none => (jsTrimL raw, none)
    | some j =>
      let json := jsTrimL ((raw.drop (i + openMarker.length)).take j)
      if json.isEmpty then (jsTrimL raw, none)
      else
        (jsTrimL (raw.take i ++ raw.drop (i + openMarker.length + j + closeMarker.length)),
         some json)

/-- Embedding of `extractGraphJsonBlock` on strings: the narrative text
and the candidate JSON payload. -/
def extractGraphJsonBlock (raw : String) : String × Option String :=
  let r := extractCore raw.data
  (String.mk r.1, r.2.map String.mk)

/-- JSON values, as `JSON.parse` produces them (numbers as exact
decimals, see the header note on floating point). -/
inductive Json where
  | null
  | bool (b : Bool)
  | num (v : Dec)
  | str (s : String)
  | arr (items : List Json)
  | obj (fields : List (String × Json))

/-- JavaScript truthiness of a parsed JSON value (`null`, `false`, `0`
and the empty string are falsy). -/
def jsTruthy : Json → Bool
  | .null => false
  | .bool b => b
  | .num v => v.m ≠ 0
  | .str s => s ≠ ""
  | .arr _ => true
  | .obj _ => true

/-- JSON's own white-space class (strictly space, tab, line feed,
carriage return). -/
def jsonWsChar (c : Char) : Bool :=
  c = ' ' || c = '\t' || c = '\n' || c = '\r'

/-- Hexadecimal digit value, for `\u` escapes. -/
def hexVal (c : Char) : Option Nat :=
  if '0' ≤ c ∧ c ≤ '9' then some (c.toNat - 48)
  else if 'a' ≤ c ∧ c ≤ 'f' then some (c.toNat - 87)
  else if 'A' ≤ c ∧ c ≤ 'F' then some (c.toNat - 55)
  else none

/-- Strict JSON string body, after the opening quote: plain characters
(no raw control characters), the escape sequences JSON admits, and the
closing quote.  Returns the decoded characters and the remaining
input. -/
def parseStringBody : Nat → List Char → List Char → Option (List Char × List Char)
  | 0, _, _ => none
  | _ + 1, [], _ => none
  | f + 1, c :: t, acc =>
    if c = '"' then some (acc.reverse, t)
    else if c = '\\' then
      match t with
      | [] => none
      | e :: t2 =>
        if e = '"' then parseStringBody f t2 ('"' :: acc)
        else if e = '\\' then parseStringBody f t2 ('\\' :: acc)
        else if e = '/' then parseStringBody f t2 ('/' :: acc)
        else if e = 'b' then parseStringBody f t2 ('\x08' :: acc)
        else if e = 'f' then parseStringBody f t2 ('\x0c' :: acc)
        else if e = 'n' then parseStringBody f t2 ('\n' :: acc)
        else if e = 'r' then parseStringBody f t2 ('\r' :: acc)
        else if e = 't' then parseStringBody f t2 ('\t' :: acc)
        else if e = 'u' then
          match t2 with
          | h1 :: h2 :: h3 :: h4 :: t3 =>
            match hexVal h1, hexVal h2, hexVal h3, hexVal h4 with
            | some a, some b, some c2, some d =>
              parseStringBody f t3 (Char.ofNat (((a * 16 + b) * 16 + c2) * 16 + d) :: acc)
            | _, _, _, _ => none
          | _ => none
        else none
    else if c.toNat < 32 then none
    else parseStringBody f t (c :: acc)

/-- Strict JSON number: optional minus, an integer part without leading
zeros, an optional fraction, an optional exponent.  The value is the
canonical decimal. -/
def parseJsonNumber (l : List Char) : Option (Dec × List Char) :=
  let (neg, l1) :=
    match l with
    | '-' :: t => (true, t)
    | _ => (false, l)
  let ipart : Option (List Char × List Char) :=
    match l1 with
    | '0' :: t => some (['0'], t)
    | c :: _ =>
      if c.isDigit then
        let (ds, r) := digitSpan l1
        some (ds, r)
      else none
    | [] => none
  match ipart with
  | none => none
  | some (ds, r1) =>
    let fpart : Option (List Char × List Char) :=
      match r1 with
      | '.' :: fr =>
        let (fs, r2) := digitSpan fr
        if fs.isEmpty then none else some (fs, r2)
      | _ => some ([], r1)
    match fpart with
    | none => none
    | some (fs, r2) =>
      let epart : Option (Int × List Char) :=
        match r2 with
        | 'e' :: er | 'E' :: er =>
          let (esign, er1) :=
            match er with
            | '+' :: t => ((1 : Int), t)
            | '-' :: t => ((-1 : Int), t)
            | _ => ((1 : Int), er)
          let (es, r3) := digitSpan er1
          if es.isEmpty then none else some (esign * Int.ofNat (digitsToNat es), r3)
        | _ => some (0, r2)
      match epart with
      | none => none
      | some (e, r3) =>
        let mRaw : Int := Int.ofNat (digitsToNat (ds ++ fs))
        let m : Int := if neg then -mRaw else mRaw
        let kI : Int := Int.ofNat fs.length - e
        let d : Dec :=
          if kI ≤ 0 then ⟨m * (10 : Int) ^ (-kI).toNat, 0⟩ else Dec.canon m kI.toNat
        some (d, r3)

mutual

/-- Strict JSON value parser (fuel-bounded recursive descent): the
embedding of `JSON.parse`'s grammar. -/
def parseJsonValue : Nat → List Char → Option (Json × List Char)
  | 0, _ => none
  | f + 1, l =>
    match l.dropWhile jsonWsChar with
    | [] => none
    | c :: t =>
      if c = '"' then
        match parseStringBody (f + 1) t [] with
        | some (cs, r) => some (.str (String.mk cs), r)
        | none => none
      else if c = '\x7b' then
        parseJsonMembers f (t.dropWhile jsonWsChar) true []
      else if c = '[' then
        parseJsonItems f (t.dropWhile jsonWsChar) true []
      else if c = 't' then
        if "rue".data.isPrefixOf t then some (.bool true, t.drop 3) else none
      else if c = 'f' then
        if "alse".data.isPrefixOf t then some (.bool false, t.drop 4) else none
      else if c = 'n' then
        if "ull".data.isPrefixOf t then some (.null, t.drop 3) else none
      else if c = '-' ∨ c.isDigit then
        match parseJsonNumber (c :: t) with
        | some (d, r) => some (.num d, r)
        | none => none
      else none

/-- Object members: `first` marks the position right after the opening
brace, where a closing brace ends an empty object. -/
def parseJsonMembers : Nat → List Char → Bool → List (String × Json) → Option (Json × List Char)
  | 0, _, _, _ => none
  | f + 1, l, first, acc =>
    match l with
    | '\x7d' :: r =>
      if first then some (.obj acc.reverse, r) else none
    | '"' :: t =>
      match parseStringBody (f + 1) t [] with
      | none => none
      | some (cs, r1) =>
        match r1.dropWhile jsonWsChar with
        | ':' :: r2 =>
          match parseJsonValue f r2 with
          | none => none
          | some (v, r3) =>
            match r3.dropWhile jsonWsChar with
            | ',' :: r4 => parseJsonMembers f (r4.dropWhile jsonWsChar) false ((String.mk cs, v) :: acc)
            | '\x7d' :: r4 => some (.obj (((String.mk cs, v) :: acc).reverse), r4)
            | _ => none
        | _ => none
    | _ => none

/-- Array items; `first` as in `parseJsonMembers`. -/
def parseJsonItems : Nat → List Char → Bool → List Json → Option (Json × List Char)
  | 0, _, _, _ => none
  | f + 1, l, first, acc =>
    if l.headD ' ' = ']' ∧ first then some (.arr acc.reverse, l.drop 1)
    else
      match parseJsonValue f l with
      | none => none
      | some (v, r1) =>
        match r1.dropWhile jsonWsChar with
        | ',' :: r2 => parseJsonItems f r2 false (v :: acc)
        | ']' :: r2 => some (.arr ((v :: acc).reverse), r2)
        | _ => none

end

/-- Embedding of `JSON.parse` on character lists: one value, possibly
surrounded by JSON white space, and nothing else; `none` is the thrown
`SyntaxError`. -/
def jsonParseL (l : List Char) : Option Json :=
  match parseJsonValue (l.length + 2) l with
  | some (v, rest) => if (rest.dropWhile jsonWsChar).isEmpty then some v else none
  | none => none

/-- Embedding of `JSON.parse` on strings. -/
def jsonParse (s : String) : Option Json := jsonParseL s.data

/-- The fixed placeholder envelope built when the repair response fails
strict parsing too (chat route, lines 380–389). -/
def placeholderEnvelope : Json :=
  .obj
    [ ("title", .str "Synthèse"),
      ("summary", .str "Données structurées indisponibles (erreur JSON)."),
      ("confidence", .num ⟨40, 0⟩),
      ("charts", .arr []),
      ("checklist", .arr []),
      ("recap_table", .obj
        [ ("columns", .arr [.str "Levier", .str "Action", .str "Indicateur"]),
          ("rows", .arr []),
          ("note", .str "JSON non récupérable.") ]),
      ("questions", .arr []) ]

/-- Embedding of the repair ladder of the chat route's `POST` handler
(lines 333–390): extraction, primary strict parse, and — when the
candidate is absent or its parse yields no truthy value — exactly one
repair completion whose text is `repairRaw`, falling back to the fixed
placeholder when the trimmed repair response fails strict parsing.  The
result is the narrative text, the final envelope value, and the number
of repair completion calls made.  (The guard `if (json1)` tests string
truthiness; an extracted candidate is never empty, so it is the `some`
case.  After `JSON.parse` succeeds, `if (!graph)` re-tests truthiness,
so a parsed falsy value also enters the repair branch.) -/
def repairPipelineCore (raw repairRaw : List Char) : List Char × Json × Nat :=
  let er := extractCore raw
  let graph1 : Option Json :=
    match er.2 with
    | none => none
    | some c => jsonParseL c
  let needsRepair : Bool :=
    match graph1 with
    | none => true
    | some g => !jsTruthy g
  if needsRepair then
    match jsonParseL (jsTrimL repairRaw) with
    | some g2 => (er.1, g2, 1)
    | none => (er.1, placeholderEnvelope, 1)
  else (er.1, graph1.getD Json.null, 0)

/-- Embedding of the repair ladder on strings. -/
def repairPipeline (raw repairRaw : String) : String × Json × Nat :=
  let r := repairPipelineCore raw.data repairRaw.data
  (String.mk r.1, r.2.1, r.2.2)

/-- One retrieval match row, as the `match_chunks` RPC returns them
(`similarity` may be absent, which `?? 0` defaults). -/
structure MatchRow where
  similarity : Option Dec
  content : String
  chunk_index : Nat
  document_id : String
deriving DecidableEq, Repr

/-- Embedding of the retrieval filter of the document-grounded route
(lines 74–76): default the row list when the RPC failed, drop rows whose
similarity (defaulted to 0) is below the 0.2 floor, keep at most 6. -/
def retrievedOf (rows : Option (List MatchRow)) : List MatchRow :=
  (((rows.getD []).filter (fun m => Dec.le ⟨2, 1⟩ (m.similarity.getD ⟨0, 0⟩))).take 6)

/-- Rendering of a similarity for the excerpt header, as `toFixed(2)`
does (two decimals, round half away from zero on these exact values). -/
def toFixed2 (d : Dec) : String :=
  let den : Int := (10 : Int) ^ d.k
  let num : Int := d.m * 100
  let q : Int :=
    if 0 ≤ num then (2 * num + den) / (2 * den) else -((2 * (-num) + den) / (2 * den))
  let ip := q.natAbs / 100
  let fp := q.natAbs % 100
  String.mk ((if q < 0 then ['-'] else []) ++ (toString ip).data ++ '.' ::
    (if fp < 10 then '0' :: (toString fp).data else (toString fp).data))

/-- The fallback text inserted when no relevant excerpt was kept. -/
def noExcerptFallback : String := "(Aucun extrait pertinent trouvé dans les documents.)"

/-- Embedding of `retrievedContext` (document-grounded route, lines
78–86): the joined excerpt blocks, or the fallback string. -/
def retrievedContext (retrieved : List MatchRow) : String :=
  if 0 < retrieved.length then
    String.intercalate "\n\n---\n\n"
      (retrieved.enum.map (fun p =>
        "EXTRAIT #" ++ toString (p.1 + 1) ++ " (sim=" ++
          toFixed2 ((p.2.similarity.getD ⟨0, 0⟩)) ++ "):\n" ++ p.2.content))
  else noExcerptFallback

/-- Embedding of `userPromptText` (document-grounded route, lines
119–128): the prompt assembled from the excerpt section, the optional
UI context and the question, trimmed. -/
def userPromptText (retrieved : List MatchRow) (contextText : Option String)
    (message : String) : String :=
  jsTrim ("\nDOCUMENTS EPPPN / LIVRES (extraits) :\n" ++ retrievedContext retrieved ++
    "\n\nContexte utilisateur (optionnel) :\n" ++ (contextText.getD "(non fourni)") ++
    "\n\nQuestion :\n" ++ message ++ "\n")

/-- Embedding of the `rag.used` count of the response (document-grounded
route, line 152). -/
def ragUsed (retrieved : List MatchRow) : Nat := retrieved.length

/-- Splitting on a single separator character, as `String.prototype.split`
behaves for one-character separators (empty pieces kept). -/
def splitOnCharAux (sep : Char) : List Char → List Char → List (List Char)
  | [], acc => [acc.reverse]
  | c :: t, acc =>
    if c = sep then acc.reverse :: splitOnCharAux sep t []
    else splitOnCharAux sep t (c :: acc)

/-- Embedding of `s.split(sep)` for a one-character separator. -/
def jsSplitChar (sep : Char) (l : List Char) : List (List Char) :=
  splitOnCharAux sep l []

/-- Outcome of the middleware: pass the request on, or answer the 401
basic-auth challenge. -/
inductive MwResult where
  | next
  | unauthorized
deriving DecidableEq, Repr

/-- Embedding of `middleware` (src/middleware.ts).  Configured secrets
are `Option String` (`none` is an unset variable; the source's `!USER`
also rejects the empty string).  Base64 decoding of the credential part
is an oracle parameter `decode`, so every decodable credential is
covered.  The source destructures `decoded.split(":")` into its first
two pieces; a missing second piece (`undefined`) never equals the
configured password. -/
def middleware (USER PASS : Option String) (auth : Option String)
    (decode : String → String) : MwResult :=
  if (USER.getD "") = "" ∨ (PASS.getD "") = "" then .unauthorized
  else
    match auth with
    | none => .unauthorized
    | some a =>
      let parts := jsSplitChar ' ' a.data
      let scheme := parts.headD []
      let encoded := (parts.getD 1 []).asString
      if ¬(scheme = "Basic".data) ∨ encoded = "" then .unauthorized
      else
        let decoded := decode encoded
        let cparts := jsSplitChar ':' decoded.data
        let user := cparts.headD []
        match cparts.get? 1 with
        | some pass =>
          if user = (USER.getD "").data ∧ pass = (PASS.getD "").data then .next
          else .unauthorized
        | none => .unauthorized

/-- The scenario text of the specification's flour-comparison example. -/
def scenarioText : String := "Comparer W260 vs W320 pour fermentation 48h au froid"

/-- An envelope with no charts, no checklist, no recap table and no
questions, used to instantiate the synthesis scenarios. -/
def emptyEnvelope : Envelope :=
  { title := "", summary := "", confidence := 0, charts := [], checklist := [],
    recap_table := none, questions := [] }

/-- Projection: the points of a scatter chart, if the chart is one. -/
def scatterPointsOf (c : Chart) : Option (List ScatterPoint) :=
  match c.data with
  | ChartData.scatterD _ _ pts _ => some pts
  | _ => none

/-- Projection: labels and values of a bar chart, if the chart is one. -/
def barLabelsValues (c : Chart) : Option (List String × List Int) :=
  match c.data with
  | ChartData.barD ls vs _ _ => some (ls, vs)
  | _ => none

theorem char_toNat_ofNat (n : Nat) (h : n.isValidChar) : (Char.ofNat n).toNat = n := by
  rw [Char.ofNat, dif_pos h]
  rfl

theorem jsLowerChar_toNat (c : Char) (h : 65 ≤ c.toNat ∧ c.toNat ≤ 90) :
    (jsLowerChar c).toNat = c.toNat + 32 := by
  unfold jsLowerChar
  rw [if_pos h]
  have hv : (c.toNat + 32).isValidChar := by
    unfold Nat.isValidChar
    left
    omega
  exact char_toNat_ofNat _ hv

theorem jsLowerChar_of_not (c : Char) (h : ¬(65 ≤ c.toNat ∧ c.toNat ≤ 90)) :
    jsLowerChar c = c := by
  unfold jsLowerChar
  rw [if_neg h]

theorem jsLowerChar_idem (c : Char) : jsLowerChar (jsLowerChar c) = jsLowerChar c := by
  by_cases h : 65 ≤ c.toNat ∧ c.toNat ≤ 90
  · have ht := jsLowerChar_toNat c h
    apply jsLowerChar_of_not
    omega
  · rw [jsLowerChar_of_not c h, jsLowerChar_of_not c h]

theorem map_jsLowerChar_idem (l : List Char) :
    (l.map jsLowerChar).map jsLowerChar = l.map jsLowerChar := by
  induction l with
  | nil => rfl
  | cons c t ih => simp [List.map_cons, jsLowerChar_idem, ih]

theorem jsToLower_idem (s : String) : jsToLower (jsToLower s) = jsToLower s := by
  unfold jsToLower
  rw [show (String.mk (s.data.map jsLowerChar)).data = s.data.map jsLowerChar from rfl]
  rw [map_jsLowerChar_idem]

theorem jsLowerChar_eq_lt_iff (c : Char) : jsLowerChar c = '<' ↔ c = '<' := by
  constructor
  · intro he
    by_cases h : 65 ≤ c.toNat ∧ c.toNat ≤ 90
    · exfalso
      have ht := jsLowerChar_toNat c h
      rw [he] at ht
      have h60 : ('<').toNat = 60 := by decide
      omega
    · rwa [jsLowerChar_of_not c h] at he
  · intro he
    subst he
    decide

theorem isPrefixOf_self_append (a b : List Char) : a.isPrefixOf (a ++ b) = true := by
  induction a with
  | nil => simp
  | cons c t ih => simp [List.cons_append, List.isPrefixOf_cons₂, ih]

theorem matchesCI_cons_ne (p' : List Char) (c : Char) (hc : c ≠ '<') (t : List Char) :
    matchesCI ('<' :: p') (c :: t) = false := by
  unfold matchesCI
  simp only [List.map_cons]
  rw [List.isPrefixOf_cons₂]
  have h1 : jsLowerChar '<' = '<' := by decide
  have h2 : jsLowerChar c ≠ '<' := fun h => hc ((jsLowerChar_eq_lt_iff c).mp h)
  have hbeq : ('<' == jsLowerChar c) = false := by
    rw [beq_eq_false_iff_ne]
    exact fun h => h2 h.symm
  rw [h1, hbeq, Bool.false_and]

theorem findCI_append (pat pre rest : List Char) (hhead : pat.head? = some '<')
    (hpre : '<' ∉ pre) :
    findCI pat (pre ++ rest) = (findCI pat rest).map (· + pre.length) := by
  induction pre with
  | nil =>
    rw [List.nil_append]
    cases findCI pat rest <;> simp
  | cons c t ih =>
    have hc : c ≠ '<' := by
      intro h
      apply hpre
      rw [← h]
      exact List.mem_cons_self c t
    have ht : '<' ∉ t := fun h => hpre (List.mem_cons_of_mem _ h)
    obtain ⟨p', hp⟩ : ∃ p', pat = '<' :: p' := by
      cases pat with
      | nil => simp at hhead
      | cons a b =>
        simp only [List.head?_cons, Option.some.injEq] at hhead
        exact ⟨b, by rw [hhead]⟩
    rw [List.cons_append]
    show (if matchesCI pat (c :: (t ++ rest)) then some 0
      else (findCI pat (t ++ rest)).map (· + 1)) = _
    rw [hp, matchesCI_cons_ne p' c hc]
    simp only [Bool.false_eq_true, if_false]
    rw [← hp, ih ht]
    cases findCI pat rest with
    | none => simp
    | some k =>
      show some (k + t.length + 1) = some (k + (t.length + 1))
      exact congrArg some (by omega)

theorem findCI_self_append (pat rest : List Char) (h : pat ≠ []) :
    findCI pat (pat ++ rest) = some 0 := by
  cases pat with
  | nil => exact absurd rfl h
  | cons a t =>
    show (if matchesCI (a :: t) ((a :: t) ++ rest) then some 0
      else (findCI (a :: t) (t ++ rest)).map (· + 1)) = some 0
    have hm : matchesCI (a :: t) ((a :: t) ++ rest) = true := by
      unfold matchesCI
      rw [List.map_append]
      exact isPrefixOf_self_append _ _
    rw [hm]
    simp

theorem extract_embed (pre inner post : List Char)
    (hpre : '<' ∉ pre) (hinner : '<' ∉ inner) :
    extractCore (pre ++ openMarker ++ inner ++ closeMarker ++ post) =
      (if (jsTrimL inner).isEmpty
       then (jsTrimL (pre ++ openMarker ++ inner ++ closeMarker ++ post), none)
       else (jsTrimL (pre ++ post), some (jsTrimL inner))) := by
  have hraw : pre ++ openMarker ++ inner ++ closeMarker ++ post =
      pre ++ (openMarker ++ (inner ++ (closeMarker ++ post))) := by
    simp [List.append_assoc]
  have hopen : findCI openMarker (pre ++ (openMarker ++ (inner ++ (closeMarker ++ post)))) =
      some pre.length := by
    rw [findCI_append openMarker pre _ (by decide) hpre,
        findCI_self_append _ _ (by decide)]
    simp
  have hdrop1 : (pre ++ (openMarker ++ (inner ++ (closeMarker ++ post)))).drop
      (pre.length + openMarker.length) = inner ++ (closeMarker ++ post) := by
    rw [show pre ++ (openMarker ++ (inner ++ (closeMarker ++ post))) =
      (pre ++ openMarker) ++ (inner ++ (closeMarker ++ post)) by simp [List.append_assoc]]
    rw [← List.length_append pre openMarker]
    exact List.drop_left _ _
  have hclose : findCI closeMarker (inner ++ (closeMarker ++ post)) = some inner.length := by
    rw [findCI_append closeMarker inner _ (by decide) hinner,
        findCI_self_append _ _ (by decide)]
    simp
  have htake : (inner ++ (closeMarker ++ post)).take inner.length = inner :=
    List.take_left _ _
  have hdrop2 : (pre ++ (openMarker ++ (inner ++ (closeMarker ++ post)))).drop
      (pre.length + openMarker.length + inner.length + closeMarker.length) = post := by
    rw [show pre ++ (openMarker ++ (inner ++ (closeMarker ++ post))) =
      (pre ++ openMarker ++ inner ++ closeMarker) ++ post by simp [List.append_assoc]]
    rw [show pre.length + openMarker.length + inner.length + closeMarker.length =
      (pre ++ openMarker ++ inner ++ closeMarker).length by
        simp only [List.length_append]
        try omega]
    exact List.drop_left _ _
  have htakei : (pre ++ (openMarker ++ (inner ++ (closeMarker ++ post)))).take pre.length = pre :=
    List.take_left _ _
  rw [hraw]
  simp only [extractCore, hopen, hdrop1, hclose, htake, hdrop2, htakei]

theorem jsonParseL_nil : jsonParseL ([] : List Char) = none := rfl

/-- C4 (amended): when the text decomposes around a sentinel-delimited
block (prose free of `<`, so the shown markers are the ones the regex
finds), extraction returns the prose with the block removed and trimmed
together with the trimmed content — except that a block whose content is
empty or white-space-only falls through to the no-block branch (empty
regex group, rejected by the source's `!m?.[1]`): there, and when no
delimited block is found at all, the candidate is `none` and the
narrative is the full trimmed input. -/
theorem c4_sentinel_extraction_amended :
    (∀ pre inner post : List Char, '<' ∉ pre → '<' ∉ inner →
      extractCore (pre ++ openMarker ++ inner ++ closeMarker ++ post) =
        (if (jsTrimL inner).isEmpty
         then (jsTrimL (pre ++ openMarker ++ inner ++ closeMarker ++ post), none)
         else (jsTrimL (pre ++ post), some (jsTrimL inner)))) ∧
    (∀ raw : List Char, graphBlockFound raw = false →
      extractCore raw = (jsTrimL raw, none)) := by
  constructor
  · exact extract_embed
  · intro raw h
    rcases hf : findCI openMarker raw with _ | i
    · simp [extractCore, hf]
    · rcases hc : findCI closeMarker (raw.drop (i + openMarker.length)) with _ | j
      · simp [extractCore, hf, hc]
      · exfalso
        simp [graphBlockFound, hf, hc] at h

/-- Witness for the amended C4 at concrete inputs: a block with content
`PAYLOAD` is extracted with the prose trimmed, and a marker-free text
yields the full trimmed text with no candidate. -/
theorem c4_sentinel_extraction_amended_witness :
    extractCore ("Intro ".data ++ openMarker ++ "PAYLOAD".data ++ closeMarker ++ " Outro".data) =
      (if (jsTrimL "PAYLOAD".data).isEmpty
       then (jsTrimL ("Intro ".data ++ openMarker ++ "PAYLOAD".data ++ closeMarker ++ " Outro".data), none)
       else (jsTrimL ("Intro ".data ++ " Outro".data), some (jsTrimL "PAYLOAD".data))) ∧
    extractCore "plain text".data = (jsTrimL "plain text".data, none) :=
  ⟨c4_sentinel_extraction_amended.1 _ _ _ (by decide) (by decide),
   c4_sentinel_extraction_amended.2 _ (by decide)⟩

/-- Counterexample to C4 as stated: the text contains a delimited block
(whose content is white-space-only), yet the candidate is `null` and the
narrative is the full raw output, not the block-stripped one. -/
theorem c4_counterexample_blank_block :
    graphBlockFound "hello <GRAPH_JSON>   </GRAPH_JSON> bye".data = true ∧
    extractGraphJsonBlock "hello <GRAPH_JSON>   </GRAPH_JSON> bye" =
      ("hello <GRAPH_JSON>   </GRAPH_JSON> bye", none) := by
  constructor
  · decide
  · decide

/-- C3: for a raw model output made of `<`-free prose around one
sentinel-delimited block whose trimmed content parses as a JSON object,
the repair step returns the prose with the block removed and trimmed, an
envelope equal to the strict parse of the block, and makes no repair
completion call. -/
theorem c3_roundtrip (pre inner post r : List Char) (fs : List (String × Json))
    (h1 : '<' ∉ pre) (h2 : '<' ∉ inner)
    (h3 : jsonParseL (jsTrimL inner) = some (Json.obj fs)) :
    repairPipelineCore (pre ++ openMarker ++ inner ++ closeMarker ++ post) r =
      (jsTrimL (pre ++ post), Json.obj fs, 0) := by
  have hne : (jsTrimL inner).isEmpty = false := by
    cases hx : jsTrimL inner with
    | nil => rw [hx, jsonParseL_nil] at h3; exact absurd h3 (by simp)
    | cons a t => rfl
  have hext := extract_embed pre inner post h1 h2
  rw [hne] at hext
  simp only [Bool.false_eq_true, if_false] at hext
  simp only [repairPipelineCore, hext, h3, jsTruthy]
  simp

/-- Witness for C3 at a concrete model output with an embedded object. -/
theorem c3_roundtrip_witness :
    repairPipelineCore
        ("Voici. ".data ++ openMarker ++ "\x7b\"a\":1\x7d".data ++ closeMarker ++ " Fin.".data)
        "x".data =
      (jsTrimL ("Voici. ".data ++ " Fin.".data), Json.obj [("a", Json.num ⟨1, 0⟩)], 0) :=
  c3_roundtrip _ _ _ _ _ (by decide) (by decide) (by rfl)

/-- C5: when the extracted candidate is absent or fails strict parsing,
exactly one repair completion call is made, and if the repair response
also fails strict parsing the result is the fixed placeholder envelope,
with no error raised (the embedding is total). -/
theorem c5_single_repair_and_fallback (raw rr : List Char)
    (h : (extractCore raw).2 = none ∨
      ∃ c, (extractCore raw).2 = some c ∧ jsonParseL c = none) :
    (repairPipelineCore raw rr).2.2 = 1 ∧
    (jsonParseL (jsTrimL rr) = none →
      (repairPipelineCore raw rr).2.1 = placeholderEnvelope) := by
  have hg : (match (extractCore raw).2 with
      | none => none
      | some c => jsonParseL c) = (none : Option Json) := by
    rcases h with h | ⟨c, hc, hp⟩
    · rw [h]
    · rw [hc]
      exact hp
  constructor
  · simp only [repairPipelineCore, hg]
    cases hrr : jsonParseL (jsTrimL rr) <;> simp [hrr]
  · intro hrr
    simp only [repairPipelineCore, hg, hrr]
    simp

/-- Witness for C5: a marker-free raw output and an unparsable repair
response produce one repair call and the placeholder envelope. -/
theorem c5_single_repair_and_fallback_witness :
    (repairPipelineCore "Bonjour sans bloc".data "pas du json".data).2.2 = 1 ∧
    (repairPipelineCore "Bonjour sans bloc".data "pas du json".data).2.1 =
      placeholderEnvelope := by
  have h := c5_single_repair_and_fallback "Bonjour sans bloc".data "pas du json".data
    (Or.inl (by decide))
  exact ⟨h.1, h.2 (by rfl)⟩

/-- C6: an envelope that already carries at least one chart keeps its
chart list unchanged through synthesis, for every mode and message. -/
theorem c6_charts_preserved (env : Envelope) (speed : Speed) (msg : String)
    (h : env.charts ≠ []) :
    (ensureGenericChartsAlways env speed msg).charts = env.charts := by
  unfold ensureGenericChartsAlways
  cases hn : ((speed == Speed.APPROFONDIE) &&
      ((getSignals msg).hasVariables || (getSignals msg).isComparison ||
        (getSignals msg).isProtocol)) with
  | false => simp [hn]
  | true =>
    simp only [hn]
    cases hc : env.charts with
    | nil => exact absurd hc h
    | cons a t => simp [hc]

/-- Witness for C6: a one-chart envelope is returned with its chart list
intact. -/
theorem c6_charts_preserved_witness :
    (ensureGenericChartsAlways
        { emptyEnvelope with charts := [timelineChartAuto] } .APPROFONDIE scenarioText).charts =
      [timelineChartAuto] :=
  c6_charts_preserved { emptyEnvelope with charts := [timelineChartAuto] }
    .APPROFONDIE scenarioText (by simp)

/-- C7: in deep mode, on a message with protocol language and an
envelope with no charts, the second synthesized chart is the fixed
timeline with exactly five steps whose minutes are 15, 60, 10, 2880 and
120, summing to 3085. -/
theorem c7_protocol_timeline (env : Envelope) (msg : String)
    (h0 : env.charts = []) (hp : (getSignals msg).isProtocol = true) :
    (ensureGenericChartsAlways env .APPROFONDIE msg).charts.get? 1 = some timelineChartAuto ∧
    (∃ steps note, timelineChartAuto.data = ChartData.timelineD steps note ∧
      steps.length = 5 ∧
      steps.map TimelineStep.minutes = [15, 60, 10, 2880, 120] ∧
      (steps.map TimelineStep.minutes).sum = 3085) := by
  constructor
  · unfold ensureGenericChartsAlways
    simp only [hp, h0, Bool.or_true, Bool.and_true, beq_self_eq_true]
    rw [if_neg (by simp), if_neg (by simp)]
    split <;> simp
  · exact ⟨_, _, rfl, by decide, by decide, by decide⟩

/-- Witness for C7 at the concrete protocol message `48h au frigo`. -/
theorem c7_protocol_timeline_witness :
    (ensureGenericChartsAlways emptyEnvelope .APPROFONDIE "48h au frigo").charts.get? 1 =
      some timelineChartAuto :=
  (c7_protocol_timeline emptyEnvelope "48h au frigo" rfl (by decide)).1

theorem jsSetDedupAux_length_le (f : Nat) :
    ∀ l : List Dec, (jsSetDedupAux f l).length ≤ l.length := by
  induction f with
  | zero =>
    intro l
    simp [jsSetDedupAux]
  | succ f ih =>
    intro l
    cases l with
    | nil => simp [jsSetDedupAux]
    | cons d t =>
      have h1 := ih (t.filter (fun e => e ≠ d))
      have h2 := List.length_filter_le (fun e => e ≠ d) t
      simp only [jsSetDedupAux, List.length_cons]
      omega

theorem jsSetDedup_length_le (l : List Dec) : (jsSetDedup l).length ≤ l.length :=
  jsSetDedupAux_length_le l.length l

/-- C2 (amended): in deep mode, when the text yields at least two
distinct extracted numbers (as the claim requires) and its signals
additionally carry variables (`hasVariables`: a unit or flour-strength
marker next to the numbers), with no comparison and no protocol
language, the synthesized charts are exactly a radar followed by a
scatter; the scatter has one point per distinct value among the first
six extracted numbers (at most six points), point `i` scoring
`clamp(55 + i * 6, 40, 90)` and labelled with the parsed value's
decimal rendering (decimal comma normalised to a dot). -/
theorem c2_deep_numbers_radar_scatter (env : Envelope) (msg : String)
    (h0 : env.charts = [])
    (hv : (getSignals msg).hasVariables = true)
    (hc : (getSignals msg).isComparison = false)
    (hp : (getSignals msg).isProtocol = false)
    (hn : 2 ≤ (jsSetDedup (getSignals msg).nums).length) :
    (ensureGenericChartsAlways env .APPROFONDIE msg).charts =
      [radarChartAuto (getSignals msg).topic, scatterChartAuto (getSignals msg).nums] ∧
    (∃ xl yl pts note,
      (scatterChartAuto (getSignals msg).nums).data = ChartData.scatterD xl yl pts note ∧
      pts = ((jsSetDedup ((getSignals msg).nums.take 6)).take 6).enum.map
        (fun p => { x := p.2, y := clamp (55 + (p.1 : Int) * 6) 40 90,
                    label := decToString p.2 }) ∧
      pts.length ≤ 6) := by
  have hn2 : 2 ≤ (getSignals msg).nums.length :=
    le_trans hn (jsSetDedup_length_le _)
  constructor
  · unfold ensureGenericChartsAlways
    simp only [hv, hc, hp, h0, beq_self_eq_true, Bool.true_or, Bool.or_false, Bool.true_and]
    rw [if_neg (by simp), if_neg (by simp), if_pos hn2]
    split <;> simp
  · refine ⟨_, _, _, _, rfl, rfl, ?_⟩
    simp only [List.length_map, List.enum_length, List.length_take]
    exact min_le_left _ _

/-- Witness for the amended C2 at the concrete message `2 3 %`. -/
theorem c2_deep_numbers_radar_scatter_witness :
    (ensureGenericChartsAlways emptyEnvelope .APPROFONDIE "2 3 %").charts =
      [radarChartAuto (getSignals "2 3 %").topic,
       scatterChartAuto (getSignals "2 3 %").nums] :=
  (c2_deep_numbers_radar_scatter emptyEnvelope "2 3 %" rfl (by decide) (by decide)
    (by decide) (by decide)).1

/-- Counterexample to C2 as stated.  First input `3 5`: two distinct
numbers, no protocol or comparison language, yet no chart at all is
synthesized (the trigger also needs `hasVariables`, i.e. a unit or
flour-strength marker).  Second input `5 5 1 2 3 4 6 %`: six distinct
numbers occur in the text, but the scatter built from the first six
extracted numbers (duplicates included) has only five points.  Third
input `2,5 % 3 %`: the matched literal is `2,5`, but the point is
labelled `2.5` — the decimal rendering of the parsed value, not the
literal numeric string. -/
theorem c2_counterexample :
    ((getSignals "3 5").nums = [⟨3, 0⟩, ⟨5, 0⟩] ∧
     (getSignals "3 5").isComparison = false ∧
     (getSignals "3 5").isProtocol = false ∧
     (ensureGenericChartsAlways emptyEnvelope .APPROFONDIE "3 5").charts = []) ∧
    ((jsSetDedup (getSignals "5 5 1 2 3 4 6 %").nums).length = 6 ∧
     (getSignals "5 5 1 2 3 4 6 %").isComparison = false ∧
     (getSignals "5 5 1 2 3 4 6 %").isProtocol = false ∧
     (ensureGenericChartsAlways emptyEnvelope .APPROFONDIE "5 5 1 2 3 4 6 %").charts.map
       Chart.type = ["radar", "scatter"] ∧
     (((ensureGenericChartsAlways emptyEnvelope .APPROFONDIE "5 5 1 2 3 4 6 %").charts.get? 1).bind
       scatterPointsOf).map List.length = some 5) ∧
    (numberLits (jsToLower "2,5 % 3 %").data = ["2,5".data, "3".data] ∧
     (((ensureGenericChartsAlways emptyEnvelope .APPROFONDIE "2,5 % 3 %").charts.get? 1).bind
       scatterPointsOf).map (List.map ScatterPoint.label) = some ["2.5", "3"]) := by
  decide

/-- C1 (amended): for the scenario text in deep mode, starting from an
envelope with an empty chart list, the signals are
topic `farines`, `isComparison`, `isProtocol`, and the synthesized
charts are exactly the farines radar, the fixed timeline, the farines
bar (`Option A (W260)` / `Option B (W320)`, scores 60 and 78) and — in
addition to what the claim lists — one scatter chart built from the
extracted numbers 260, 320 and 48. -/
theorem c1_scenario_charts_amended (env : Envelope) (h0 : env.charts = []) :
    (getSignals scenarioText).topic = "farines" ∧
    (getSignals scenarioText).isComparison = true ∧
    (getSignals scenarioText).isProtocol = true ∧
    (ensureGenericChartsAlways env .APPROFONDIE scenarioText).charts =
      [radarChartAuto "farines", timelineChartAuto, barChartAuto "farines",
       scatterChartAuto [⟨260, 0⟩, ⟨320, 0⟩, ⟨48, 0⟩]] ∧
    barLabelsValues (barChartAuto "farines") =
      some (["Option A (W260)", "Option B (W320)"], [60, 78]) ∧
    scatterPointsOf (scatterChartAuto [⟨260, 0⟩, ⟨320, 0⟩, ⟨48, 0⟩]) =
      some [⟨⟨260, 0⟩, 55, "260"⟩, ⟨⟨320, 0⟩, 61, "320"⟩, ⟨⟨48, 0⟩, 67, "48"⟩] := by
  have htopic : (getSignals scenarioText).topic = "farines" := by decide
  have hcmp : (getSignals scenarioText).isComparison = true := by decide
  have hprot : (getSignals scenarioText).isProtocol = true := by decide
  have hvar : (getSignals scenarioText).hasVariables = true := by decide
  have hnums : (getSignals scenarioText).nums = [⟨260, 0⟩, ⟨320, 0⟩, ⟨48, 0⟩] := by decide
  refine ⟨htopic, hcmp, hprot, ?_, by decide, by decide⟩
  unfold ensureGenericChartsAlways
  simp only [hvar, hcmp, hprot, htopic, hnums, h0, beq_self_eq_true, Bool.true_or,
    Bool.or_true, Bool.true_and]
  rw [if_neg (by simp), if_neg (by simp)]
  split <;> simp

/-- Witness for the amended C1 at the empty envelope. -/
theorem c1_scenario_charts_amended_witness :
    (ensureGenericChartsAlways emptyEnvelope .APPROFONDIE scenarioText).charts =
      [radarChartAuto "farines", timelineChartAuto, barChartAuto "farines",
       scatterChartAuto [⟨260, 0⟩, ⟨320, 0⟩, ⟨48, 0⟩]] :=
  (c1_scenario_charts_amended emptyEnvelope rfl).2.2.2.1

/-- Counterexample to C1 as stated: the synthesized chart list has four
charts — a scatter chart follows the radar, timeline and bar — so it is
not exactly the three-chart list the claim gives. -/
theorem c1_scenario_scatter_appended :
    emptyEnvelope.charts = [] ∧
    (ensureGenericChartsAlways emptyEnvelope .APPROFONDIE scenarioText).charts.map
      Chart.type = ["radar", "timeline", "bar", "scatter"] ∧
    (ensureGenericChartsAlways emptyEnvelope .APPROFONDIE scenarioText).charts.length = 4 := by
  decide

theorem includesL_self_append (sub y : List Char) : includesL (sub ++ y) sub = true := by
  cases hsy : sub ++ y with
  | nil =>
    have hs : sub = [] := (List.append_eq_nil.mp hsy).1
    rw [hs]
    rfl
  | cons a t =>
    show (sub.isPrefixOf (a :: t) || includesL t sub) = true
    rw [← hsy, isPrefixOf_self_append]
    simp

theorem includesL_append_middle (x sub y : List Char) :
    includesL (x ++ (sub ++ y)) sub = true := by
  induction x with
  | nil =>
    rw [List.nil_append]
    exact includesL_self_append sub y
  | cons a t ih =>
    show (sub.isPrefixOf (a :: (t ++ (sub ++ y))) || includesL (t ++ (sub ++ y)) sub) = true
    rw [ih]
    simp

theorem dropWhile_append_of_ne_nil (p : Char → Bool) (x y : List Char)
    (h : x.dropWhile p ≠ []) : (x ++ y).dropWhile p = x.dropWhile p ++ y := by
  induction x with
  | nil => exact absurd rfl h
  | cons a t ih =>
    by_cases hpa : p a = true
    · have h2 : List.dropWhile p t ≠ [] := by
        rwa [List.dropWhile_cons_of_pos hpa] at h
      rw [List.cons_append, List.dropWhile_cons_of_pos hpa, List.dropWhile_cons_of_pos hpa,
        ih h2]
    · have hpa2 : p a = false := by
        cases hq : p a
        · rfl
        · exact absurd hq hpa
      rw [List.cons_append, List.dropWhile_cons_of_neg (by simp [hpa2]),
        List.dropWhile_cons_of_neg (by simp [hpa2]), List.cons_append]

theorem trimTail_append (a b : List Char) (hb : ∃ c ∈ b, jsIsWs c = false) :
    ((a ++ b).reverse.dropWhile jsIsWs).reverse =
      a ++ (b.reverse.dropWhile jsIsWs).reverse := by
  have hne : b.reverse.dropWhile jsIsWs ≠ [] := by
    intro hnil
    rcases hb with ⟨c, hc, hws⟩
    have := List.dropWhile_eq_nil_iff.mp hnil c (List.mem_reverse.mpr hc)
    rw [hws] at this
    exact Bool.false_ne_true this
  rw [List.reverse_append, dropWhile_append_of_ne_nil _ _ _ hne, List.reverse_append,
    List.reverse_reverse]

/-- C8: the retrieval post-processing keeps only matches whose defaulted
similarity reaches the 0.2 floor and retains at most six of them; when
no row reaches the floor (in particular when retrieval failed and the
row list was defaulted to empty), the excerpt section is the literal
fallback string, the used-retrieval count is 0, and the assembled prompt
contains the fallback string. -/
theorem c8_retrieval_floor_cap_fallback (rows : Option (List MatchRow))
    (ct : Option String) (msg : String) :
    (∀ m ∈ retrievedOf rows, Dec.le ⟨2, 1⟩ (m.similarity.getD ⟨0, 0⟩) = true) ∧
    (retrievedOf rows).length ≤ 6 ∧
    ((∀ m ∈ rows.getD [], Dec.le ⟨2, 1⟩ (m.similarity.getD ⟨0, 0⟩) = false) →
      retrievedOf rows = [] ∧
      retrievedContext (retrievedOf rows) = noExcerptFallback ∧
      ragUsed (retrievedOf rows) = 0 ∧
      includesL (userPromptText (retrievedOf rows) ct msg).data noExcerptFallback.data = true) := by
  refine ⟨?_, ?_, ?_⟩
  · intro m hm
    unfold retrievedOf at hm
    have h1 : m ∈ (rows.getD []).filter
        (fun m => Dec.le ⟨2, 1⟩ (m.similarity.getD ⟨0, 0⟩)) := List.mem_of_mem_take hm
    exact (List.mem_filter.mp h1).2
  · exact List.length_take_le _ _
  · intro hall
    have hempty : retrievedOf rows = [] := by
      unfold retrievedOf
      have hf : (rows.getD []).filter
          (fun m => Dec.le ⟨2, 1⟩ (m.similarity.getD ⟨0, 0⟩)) = [] := by
        rw [List.filter_eq_nil_iff]
        intro a ha
        rw [hall a ha]
        simp
      rw [hf]
      rfl
    refine ⟨hempty, ?_, ?_, ?_⟩
    · rw [hempty]
      rfl
    · rw [hempty]
      rfl
    · rw [hempty]
      have hstep : (userPromptText [] ct msg).data =
          jsTrimL ("\nDOCUMENTS EPPPN / LIVRES (extraits) :\n".data ++
            (noExcerptFallback.data ++ ("\n\nContexte utilisateur (optionnel) :\n".data ++
            ((ct.getD "(non fourni)").data ++ ("\n\nQuestion :\n".data ++
            (msg.data ++ "\n".data)))))) := by
        simp [userPromptText, jsTrim, retrievedContext, String.data_append, List.append_assoc]
      rw [hstep]
      have hdw : List.dropWhile jsIsWs ("\nDOCUMENTS EPPPN / LIVRES (extraits) :\n".data ++
          (noExcerptFallback.data ++ ("\n\nContexte utilisateur (optionnel) :\n".data ++
          ((ct.getD "(non fourni)").data ++ ("\n\nQuestion :\n".data ++
          (msg.data ++ "\n".data)))))) =
          "DOCUMENTS EPPPN / LIVRES (extraits) :\n".data ++
          (noExcerptFallback.data ++ ("\n\nContexte utilisateur (optionnel) :\n".data ++
          ((ct.getD "(non fourni)").data ++ ("\n\nQuestion :\n".data ++
          (msg.data ++ "\n".data))))) := rfl
      unfold jsTrimL
      rw [hdw]
      rw [show "DOCUMENTS EPPPN / LIVRES (extraits) :\n".data ++
          (noExcerptFallback.data ++ ("\n\nContexte utilisateur (optionnel) :\n".data ++
          ((ct.getD "(non fourni)").data ++ ("\n\nQuestion :\n".data ++
          (msg.data ++ "\n".data))))) =
          ("DOCUMENTS EPPPN / LIVRES (extraits) :\n".data ++ noExcerptFallback.data) ++
          ("\n\nContexte utilisateur (optionnel) :\n".data ++
          ((ct.getD "(non fourni)").data ++ ("\n\nQuestion :\n".data ++
          (msg.data ++ "\n".data)))) by simp [List.append_assoc]]
      rw [trimTail_append _ _ ⟨'C', List.mem_append_left _ (by decide), by decide⟩]
      rw [List.append_assoc]
      exact includesL_append_middle _ _ _

/-- Witness for C8: one retrieval row below the floor yields no kept
match, the fallback excerpt section, a zero used count, and a prompt
containing the fallback string. -/
theorem c8_retrieval_floor_cap_fallback_witness :
    retrievedOf (some [⟨some ⟨1, 1⟩, "contenu", 0, "doc"⟩]) = [] ∧
    retrievedContext (retrievedOf (some [⟨some ⟨1, 1⟩, "contenu", 0, "doc"⟩])) =
      noExcerptFallback ∧
    ragUsed (retrievedOf (some [⟨some ⟨1, 1⟩, "contenu", 0, "doc"⟩])) = 0 ∧
    includesL (userPromptText (retrievedOf (some [⟨some ⟨1, 1⟩, "contenu", 0, "doc"⟩]))
      none "Question test").data noExcerptFallback.data = true :=
  (c8_retrieval_floor_cap_fallback (some [⟨some ⟨1, 1⟩, "contenu", 0, "doc"⟩])
    none "Question test").2.2 (by decide)

/-- C9: the signal extractor is a total function (the embedding is a
Lean function, so termination and absence of failure are structural), it
is case-insensitive — lower-casing the input first does not change the
result — and every extracted number is the finite conversion of one of
the matched numeric literals, comma normalised to a dot. -/
theorem c9_signals_total_case_insensitive_finite (s : String) :
    getSignals (jsToLower s) = getSignals s ∧
    ∀ d ∈ (getSignals s).nums, jsNumFinite d = true ∧
      ∃ lit ∈ numberLits (jsToLower s).data,
        parseDecLit (commaToDot lit) = some d := by
  constructor
  · unfold getSignals
    rw [jsToLower_idem]
  · intro d hd
    have hnums : (getSignals s).nums =
        ((numberLits (jsToLower s).data).filterMap
          (fun lit => parseDecLit (commaToDot lit))).filter jsNumFinite := rfl
    rw [hnums] at hd
    refine ⟨(List.mem_filter.mp hd).2, ?_⟩
    rcases List.mem_filterMap.mp (List.mem_of_mem_filter hd) with ⟨lit, hlit, hp⟩
    exact ⟨lit, hlit, hp⟩

/-- Witness for C9 at `X 2,5 KG`: lower-casing first changes nothing,
and the extracted value 2.5 comes from the literal `2,5`. -/
theorem c9_signals_total_case_insensitive_finite_witness :
    getSignals (jsToLower "X 2,5 KG") = getSignals "X 2,5 KG" ∧
    ∃ lit ∈ numberLits (jsToLower "X 2,5 KG").data,
      parseDecLit (commaToDot lit) = some ⟨25, 1⟩ := by
  have h := c9_signals_total_case_insensitive_finite "X 2,5 KG"
  exact ⟨h.1, (h.2 ⟨25, 1⟩ (by decide)).2⟩

theorem splitOnCharAux_no_sep (sep : Char) (l : List Char) :
    ∀ (acc : List Char), (∀ c ∈ acc, c ≠ sep) →
      ∀ p ∈ splitOnCharAux sep l acc, ∀ c ∈ p, c ≠ sep := by
  induction l with
  | nil =>
    intro acc hacc p hp c hc
    simp only [splitOnCharAux, List.mem_singleton] at hp
    subst hp
    exact hacc c (List.mem_reverse.mp hc)
  | cons a t ih =>
    intro acc hacc p hp c hc
    by_cases ha : a = sep
    · rw [show splitOnCharAux sep (a :: t) acc =
        acc.reverse :: splitOnCharAux sep t [] by simp [splitOnCharAux, ha]] at hp
      rcases List.mem_cons.mp hp with hp | hp
      · subst hp
        exact hacc c (List.mem_reverse.mp hc)
      · exact ih [] (by simp) p hp c hc
    · rw [show splitOnCharAux sep (a :: t) acc =
        splitOnCharAux sep t (a :: acc) by simp [splitOnCharAux, ha]] at hp
      refine ih (a :: acc) ?_ p hp c hc
      intro c2 hc2
      rcases List.mem_cons.mp hc2 with h2 | h2
      · rw [h2]
        exact ha
      · exact hacc c2 h2

/-- C10: when the configured basic-auth password contains a colon, the
middleware answers the 401 challenge on every request — whatever the
authorization header and however the credential decodes (even to
exactly `user:password`) — because the compared password piece is the
colon-free segment between the first and second colon of the decoded
credential. -/
theorem c10_colon_password_locks_out (USER PASS : String) (auth : Option String)
    (decode : String → String) (h : ':' ∈ PASS.data) :
    middleware (some USER) (some PASS) auth decode = MwResult.unauthorized := by
  unfold middleware
  split
  · rfl
  · cases auth with
    | none => rfl
    | some a =>
      simp only [Option.getD_some]
      split
      · rfl
      · split
        · next pass heq =>
          rw [if_neg]
          intro hcon
          have hmem : pass ∈ jsSplitChar ':'
              (decode ((jsSplitChar ' ' a.data).getD 1 []).asString).data :=
            List.get?_mem heq
          have hns := splitOnCharAux_no_sep ':'
            (decode ((jsSplitChar ' ' a.data).getD 1 []).asString).data
            [] (by simp) pass hmem ':'
          rw [hcon.2] at hns
          exact hns h rfl
        · rfl

/-- Witness for C10: password `p:q`, a well-formed Basic header, and a
decode yielding exactly `u:p:q` (the configured user and password) are
still rejected. -/
theorem c10_colon_password_locks_out_witness :
    middleware (some "u") (some "p:q") (some "Basic dTpwOnE=") (fun _ => "u:p:q") =
      MwResult.unauthorized :=
  c10_colon_password_locks_out "u" "p:q" (some "Basic dTpwOnE=") (fun _ => "u:p:q") (by decide)
